import Mathlib

/-
Verification of the easy-chat-ce remote-store client (`src/lib/avatar.ts`
embedded XesCloud module and `src/lib/XesCloud.ts`): the LRU cache, the
two-tier message cache, the write queue, the read-enumeration fetch loop,
the request coalescer, and `clearCache`.

JavaScript `Map<K, V>` objects are modelled as association lists with unique
keys: `Map.get` is first-match lookup, `Map.set` replaces the binding, and
`Map.delete` removes it.  Times (`Date.now()` values) are modelled as `Int`.
-/

set_option autoImplicit false

namespace EasyChat

variable {K V : Type} [DecidableEq K]

/-- `Map.get`: look a key up in the association-list model of a JS `Map`. -/
def mapLookup : List (K × V) → K → Option V
  | [], _ => none
  | p :: rest, key => if p.1 = key then some p.2 else mapLookup rest key

/-- `Map.delete`: remove a key's binding. As `Map` keys are unique, removal
is modelled by filtering out every binding of the key. -/
def mapDel (m : List (K × V)) (key : K) : List (K × V) :=
  m.filter (fun p => decide (p.1 ≠ key))

/-- `Map.set`: bind `key` to `v`, replacing any previous binding. -/
def mapSet (m : List (K × V)) (key : K) (v : V) : List (K × V) :=
  (key, v) :: mapDel m key

/-- `Array.prototype.splice` at `indexOf`: remove the first occurrence of
`key` from the recency list (`this.keys`). -/
def removeFirst : List K → K → List K
  | [], _ => []
  | k :: rest, key => if k = key then rest else k :: removeFirst rest key

/-! ## LRUCache (avatar.ts 54-109 / XesCloud.ts 11-66)

State: `cache` is the JS `Map`, `keys` the recency array (head = least
recently used, last = most recently used), `maxSize` the config bound. -/

structure LRUCache (K V : Type) where
  cache : List (K × V)
  keys : List K
  maxSize : Nat

namespace LRUCache

variable {K V : Type} [DecidableEq K]

/-- `new LRUCache(config)` with `maxSize` resolved (default 100). -/
def empty (maxSize : Nat) : LRUCache K V :=
  { cache := [], keys := [], maxSize := maxSize }

/-- `get(key)`: absent keys return `undefined`; present keys are moved to
the most-recently-used end of `keys` before returning the value. -/
def get (st : LRUCache K V) (key : K) : Option V × LRUCache K V :=
  if (mapLookup st.cache key).isNone then (none, st)
  else
    let keys' := if key ∈ st.keys then removeFirst st.keys key ++ [key] else st.keys
    (mapLookup st.cache key, { st with keys := keys' })

/-- `set(key, value)`: an existing key is re-bound and moved to the MRU end;
a new key on a full cache first evicts the key at the head of `keys`
(`this.keys.shift()`), then inserts. -/
def set (st : LRUCache K V) (key : K) (v : V) : LRUCache K V :=
  if (mapLookup st.cache key).isSome then
    let keys' := if key ∈ st.keys then removeFirst st.keys key else st.keys
    { st with cache := mapSet st.cache key v, keys := keys' ++ [key] }
  else if st.keys.length ≥ st.maxSize then
    match st.keys with
    | [] => { st with cache := mapSet st.cache key v, keys := [key] }
    | oldest :: rest =>
      { st with cache := mapSet (mapDel st.cache oldest) key v, keys := rest ++ [key] }
  else
    { st with cache := mapSet st.cache key v, keys := st.keys ++ [key] }

/-- `has(key)`. -/
def hasKey (st : LRUCache K V) (key : K) : Bool :=
  (mapLookup st.cache key).isSome

/-- `delete(key)`: returns whether the key was present, removes it from
both the map and the recency list. -/
def del (st : LRUCache K V) (key : K) : Bool × LRUCache K V :=
  let keys' := if key ∈ st.keys then removeFirst st.keys key else st.keys
  ((mapLookup st.cache key).isSome, { st with cache := mapDel st.cache key, keys := keys' })

/-- `clear()`. -/
def clearAll (st : LRUCache K V) : LRUCache K V :=
  { st with cache := [], keys := [] }

end LRUCache

/-- The LRU example state of the spec: capacity 2, then
`set 1`, `set 2`, `get 1`, `set 3`. -/
def lruExample : LRUCache Nat Nat :=
  ((((LRUCache.empty 2).set 1 10).set 2 20).get 1).2.set 3 30

/-! ## MessageCacheManager (avatar.ts 129-273 / XesCloud.ts 86-230)

`localStorage` is modelled as an association list from storage keys to the
parse of the stored string: a raw value either parses as a `CacheEntry`
(`Stored.ok`) or makes `JSON.parse` throw (`Stored.bad`). -/

/-- A full enumeration result / message record: `Record<string, string>`. -/
abbrev Messages := List (String × String)

/-- `CacheEntry<Record<string, string>>` as persisted. -/
structure CacheEntry where
  data : Messages
  timestamp : Int
  version : Int
deriving DecidableEq

structure MessageCacheConfig where
  memoryMaxSize : Nat
  localStorageExpiry : Int
  version : Int
deriving DecidableEq

def DEFAULT_MESSAGE_CACHE_CONFIG : MessageCacheConfig :=
  { memoryMaxSize := 100, localStorageExpiry := 5 * 60 * 1000, version := 1 }

/-- The parse of one persisted `localStorage` value. -/
inductive Stored
  | ok (entry : CacheEntry)
  | bad
deriving DecidableEq

abbrev LocalStorage := List (String × Stored)

def STORAGE_PREFIX : String := "msg_cache_"

namespace MessageCacheManager

structure State where
  memoryCache : LRUCache String Messages
  config : MessageCacheConfig

/-- `getCacheKey(chatId)` = `String(chatId)`. -/
def getCacheKey (chatId : Int) : String := toString chatId

/-- The `localStorage` key `STORAGE_PREFIX + chatId`. -/
def storageKey (chatId : Int) : String := STORAGE_PREFIX ++ toString chatId

/-- `getFromLocalStorage`: a missing or unparseable entry yields `null`
(the latter after a logged warning, without removal); a version-mismatched
or expired entry is removed and yields `null`; otherwise the entry's data
is returned. -/
def getFromLocalStorage (st : State) (store : LocalStorage) (chatId : Int) (now : Int) :
    Option Messages × LocalStorage :=
  let key := storageKey chatId
  match mapLookup store key with
  | none => (none, store)
  | some .bad => (none, store)
  | some (.ok entry) =>
    if entry.version ≠ st.config.version then (none, mapDel store key)
    else if now - entry.timestamp > st.config.localStorageExpiry then (none, mapDel store key)
    else (some entry.data, store)

/-- `getFromMemory`: a memory-tier hit goes through `LRUCache.get`, which
also updates recency. -/
def getFromMemory (st : State) (chatId : Int) : Option Messages × State :=
  let key := getCacheKey chatId
  if st.memoryCache.hasKey key then
    let r := st.memoryCache.get key
    (r.1, { st with memoryCache := r.2 })
  else (none, st)

def setToMemory (st : State) (chatId : Int) (messages : Messages) : State :=
  { st with memoryCache := st.memoryCache.set (getCacheKey chatId) messages }

def setToLocalStorage (st : State) (store : LocalStorage) (chatId : Int)
    (messages : Messages) (now : Int) : LocalStorage :=
  mapSet store (storageKey chatId)
    (.ok { data := messages, timestamp := now, version := st.config.version })

/-- `get(chatId)`: memory hit, else promoted persisted hit, else `null`. -/
def get (st : State) (store : LocalStorage) (chatId : Int) (now : Int) :
    Option Messages × State × LocalStorage :=
  let m := getFromMemory st chatId
  match m.1 with
  | some v => (some v, m.2, store)
  | none =>
    let l := getFromLocalStorage m.2 store chatId now
    match l.1 with
    | some v => (some v, setToMemory m.2 chatId v, l.2)
    | none => (none, m.2, l.2)

/-- `set(chatId, messages)`: writes both tiers. -/
def set (st : State) (store : LocalStorage) (chatId : Int) (messages : Messages)
    (now : Int) : State × LocalStorage :=
  (setToMemory st chatId messages, setToLocalStorage st store chatId messages now)

/-- `clear(chatId)`: removes the id from both tiers. -/
def clear (st : State) (store : LocalStorage) (chatId : Int) : State × LocalStorage :=
  ({ st with memoryCache := (st.memoryCache.del (getCacheKey chatId)).2 },
   mapDel store (STORAGE_PREFIX ++ toString chatId))

end MessageCacheManager

/-! ## fetchOnceData (avatar.ts 557-630 / XesCloud.ts 365-438)

The read-enumeration walk is modelled as a state machine over the events
that can reach the promise's callbacks: inbound frames (`onmessage`), the
global timeout firing, `onerror` and `onclose`. -/

/-- Classification of one inbound WebSocket frame after the duck-typed
checks of the message handlers: a keepalive ping; an ack (whose `reply`
field may be absent); an enumeration `name`/`value` pair; well-formed JSON
of any other shape (falls through every branch); or an unparseable frame
(`JSON.parse` throws). -/
inductive Frame
  | ping
  | ack (reply : Option String)
  | pair (name value : String)
  | other
  | malformed
deriving DecidableEq

inductive FetchOutcome
  | resolved (result : Messages)
  | rejected
deriving DecidableEq

structure FetchState where
  result : Messages
  completed : Bool
  outcome : Option FetchOutcome
  socketClosed : Bool
  warnCount : Nat
deriving DecidableEq

def initFetchState : FetchState :=
  { result := [], completed := false, outcome := none, socketClosed := false, warnCount := 0 }

/-- One `ws.onmessage` callback of `fetchOnceData`: ping is answered with
pong; ack re-sends the handshake; a pair whose name is already recorded
completes the walk (close the socket, resolve with the accumulated result);
a new pair is recorded and the handshake re-sent; any other frame is
ignored, an unparseable one after a logged warning. -/
def fetchMsgStep (st : FetchState) (f : Frame) : FetchState :=
  if st.completed then st
  else
    match f with
    | .ping => st
    | .ack _ => st
    | .pair n v =>
      if (mapLookup st.result n).isSome then
        { st with completed := true, socketClosed := true,
                  outcome := some (.resolved st.result) }
      else { st with result := st.result ++ [(n, v)] }
    | .other => st
    | .malformed => { st with warnCount := st.warnCount + 1 }

inductive FetchEvent
  | msg (f : Frame)
  | timeout
  | socketError
  | socketClose
deriving DecidableEq

/-- One event of the `fetchOnceData` promise: the timeout closes the socket
and resolves with the partial result; `onerror` rejects with the connection
error; `onclose` resolves with the partial result; all are no-ops once
completed. -/
def fetchStep (st : FetchState) (e : FetchEvent) : FetchState :=
  match e with
  | .msg f => fetchMsgStep st f
  | .timeout =>
    if st.completed then st
    else { st with completed := true, socketClosed := true,
                   outcome := some (.resolved st.result) }
  | .socketError =>
    if st.completed then st
    else { st with completed := true, outcome := some .rejected }
  | .socketClose =>
    if st.completed then st
    else { st with completed := true, socketClosed := true,
                   outcome := some (.resolved st.result) }

def runFetch (events : List FetchEvent) : FetchState :=
  events.foldl fetchStep initFetchState

/-! ## The write round trip (avatar.ts 333-383, 450-529)

`ensureWriteConnection`'s shared `onmessage` handler swallows pings
(answering pong) and forwards every other frame to the single registered
write resolver; `doWrite`'s resolver settles the round trip from the
forwarded frame; `sendNum`'s queued task turns the resolved ack data into
the task's settlement. -/

inductive WriteErr
  | parseError
  | unexpectedResponse
  | remoteRejected
deriving DecidableEq

/-- The write connection's `onmessage`: `none` means the frame was
swallowed (a ping, answered with pong); otherwise the frame reaches the
current write resolver. A parse failure in this handler is caught and
ignored, so an unparseable frame is still forwarded. -/
def writeConnForward (f : Frame) : Option Frame :=
  match f with
  | .ping => none
  | f => some f

/-- `doWrite`'s resolver on a forwarded frame: `method === 'ack'` resolves
with the ack data; an unparseable frame rejects with the parse error
(`reject(e)`); any other shape rejects with `'非预期的响应'`. (A ping never
reaches the resolver.) -/
def doWriteResolveFrame (f : Frame) : Except WriteErr (Option String) :=
  match f with
  | .ack r => .ok r
  | .malformed => .error .parseError
  | _ => .error .unexpectedResponse

/-- Effect of one inbound frame on an in-flight `doWrite`: `none` when the
frame never reaches the resolver, otherwise the round trip's settlement. -/
def writeFrameOutcome (f : Frame) : Option (Except WriteErr (Option String)) :=
  (writeConnForward f).map doWriteResolveFrame

/-- The tail of `sendNum`'s queued task: `response.reply === 'OK'` resolves
`'success'`, anything else throws `'发送失败'` (the remote rejected the
write). -/
def sendNumComplete (reply : Option String) : Except WriteErr String :=
  if reply = some "OK" then .ok "success" else .error .remoteRejected

/-- Effect of one inbound frame on an in-flight `sendNum` write task. -/
def sendNumFrameOutcome (f : Frame) : Option (Except WriteErr String) :=
  (writeFrameOutcome f).map (fun r => r.bind sendNumComplete)

/-! ## Write queue (avatar.ts 412-445)

`enqueueWriteTask` and `processWriteQueue` are modelled as a transition
system over the stimuli that can reach them in the single-threaded event
loop: an `enqueueWriteTask` call, and the settlement of the `next.task()`
promise the processing loop is awaiting.  The body of `processWriteQueue`
runs synchronously from the flag check up to the first `await`, so
`isProcessingQueue` is true exactly while some task is being awaited. -/

inductive QEvent
  | taskStart (id : Nat)
  | taskSettle (id : Nat)
deriving DecidableEq

inductive QCmd
  | enqueue (id : Nat)
  | settleCurrent
deriving DecidableEq

/-- `current` is the task whose network operation the loop is awaiting;
`trace` records task starts and settlements in order; `enqueued` records
the ids in `enqueueWriteTask` call order. -/
structure QueueState where
  queue : List Nat
  current : Option Nat
  trace : List QEvent
  enqueued : List Nat
deriving DecidableEq

def initQueueState : QueueState :=
  { queue := [], current := none, trace := [], enqueued := [] }

/-- One stimulus: `enqueue` pushes to the tail and calls
`processWriteQueue`, which is a no-op while a loop is already running and
otherwise starts executing the head task; a settlement (resolution or
rejection alike) shifts the settled head, settles its handle, and the loop
immediately starts the next head task, if any. -/
def qStep (st : QueueState) : QCmd → QueueState
  | .enqueue i =>
    let st' := { st with queue := st.queue ++ [i], enqueued := st.enqueued ++ [i] }
    match st.current with
    | some _ => st'
    | none =>
      match st'.queue with
      | [] => st'
      | hd :: _ => { st' with current := some hd, trace := st'.trace ++ [.taskStart hd] }
  | .settleCurrent =>
    match st.current with
    | none => st
    | some i =>
      match st.queue.drop 1 with
      | [] => { st with queue := [], current := none,
                        trace := st.trace ++ [.taskSettle i] }
      | hd :: rest =>
        { st with queue := hd :: rest, current := some hd,
                  trace := st.trace ++ [.taskSettle i, .taskStart hd] }

def runQueue (cmds : List QCmd) : QueueState :=
  cmds.foldl qStep initQueueState

/-- The trace of a list of fully settled tasks: start/settle pairs. -/
def pairTrace : List Nat → List QEvent
  | [] => []
  | i :: rest => .taskStart i :: .taskSettle i :: pairTrace rest

/-- Well-formed trace shape: settled pairs, then the start of the task
currently being awaited, if any. -/
def fullTrace (done : List Nat) : Option Nat → List QEvent
  | none => pairTrace done
  | some i => pairTrace done ++ [.taskStart i]

/-- Ids of settled tasks in trace order. -/
def settledIds (tr : List QEvent) : List Nat :=
  tr.filterMap (fun e => match e with | .taskSettle i => some i | _ => none)

/-- Ids of started tasks in trace order. -/
def startedIds (tr : List QEvent) : List Nat :=
  tr.filterMap (fun e => match e with | .taskStart i => some i | _ => none)

/-- Checks that a trace is strictly serial: each started task settles
before the next starts (the last may still be running). -/
def serialOK : List QEvent → Bool
  | [] => true
  | [.taskStart _] => true
  | .taskStart i :: .taskSettle j :: rest => i == j && serialOK rest
  | _ => false

/-! ## cleanupWriteConnection (avatar.ts 388-407) -/

/-- A promise settlement produced by `cleanupWriteConnection`:
`resolverRejected` is `reject(new Error('连接已关闭'))` on the active write
resolver, `taskRejected` is `reject(new Error('连接已关闭，任务取消'))` on a
drained queue item. -/
inductive Settlement
  | resolverRejected (id : Nat)
  | taskRejected (id : Nat)
deriving DecidableEq

structure WriteConnState where
  writeWsOpen : Bool
  writeConnecting : Bool
  currentWriteResolver : Option Nat
  writeTaskQueue : List Nat
deriving DecidableEq

/-- `cleanupWriteConnection`: close and drop the socket and the pending
connection handle, reject the active write resolver if any, then
shift-and-reject every task left in the queue. -/
def cleanupWriteConnection (st : WriteConnState) : WriteConnState × List Settlement :=
  ({ writeWsOpen := false, writeConnecting := false,
     currentWriteResolver := none, writeTaskQueue := [] },
   (match st.currentWriteResolver with
    | some i => [Settlement.resolverRejected i]
    | none => []) ++ st.writeTaskQueue.map Settlement.taskRejected)

/-! ## getAllNum request coalescing (avatar.ts 531-555) -/

/-- The module-level `globalCache` and `pendingRequests` maps, plus a
count of `fetchOnceData` invocations and a supply of promise identities. -/
structure CoalesceState where
  globalCache : List (String × (Messages × Int))
  pendingRequests : List (String × Nat)
  fetchCount : Nat
  nextFetchId : Nat
deriving DecidableEq

def initCoalesceState : CoalesceState :=
  { globalCache := [], pendingRequests := [], fetchCount := 0, nextFetchId := 0 }

def CACHE_TTL : Int := 2000

/-- What one `getAllNum` call hands back: fresh TTL-cached data, the
shared in-flight promise, or a newly started `fetchOnceData` promise. -/
inductive GetAllOutcome
  | cached (data : Messages)
  | joined (fetchId : Nat)
  | started (fetchId : Nat)
deriving DecidableEq

/-- `getAllNum` up to its suspension point: serve a fresh TTL cache entry,
else join the in-flight request, else start a new `fetchOnceData`
(incrementing the invocation count) and register it as pending. -/
def getAllNum (st : CoalesceState) (projectId : String) (now : Int) :
    GetAllOutcome × CoalesceState :=
  let fresh :=
    match mapLookup st.globalCache projectId with
    | some c => if now - c.2 < CACHE_TTL then some c.1 else none
    | none => none
  match fresh with
  | some d => (.cached d, st)
  | none =>
    match mapLookup st.pendingRequests projectId with
    | some fid => (.joined fid, st)
    | none =>
      (.started st.nextFetchId,
       { st with
          pendingRequests := mapSet st.pendingRequests projectId st.nextFetchId,
          fetchCount := st.fetchCount + 1,
          nextFetchId := st.nextFetchId + 1 })

/-- The `.then` continuation of a successful fetch: populate the TTL cache
and clear the in-flight marker. -/
def resolveFetch (st : CoalesceState) (projectId : String) (data : Messages)
    (now : Int) : CoalesceState :=
  { st with globalCache := mapSet st.globalCache projectId (data, now),
            pendingRequests := mapDel st.pendingRequests projectId }

/-- The `.catch` continuation of a failed fetch: clear the in-flight
marker only. -/
def rejectFetch (st : CoalesceState) (projectId : String) : CoalesceState :=
  { st with pendingRequests := mapDel st.pendingRequests projectId }

/-! ## clearCache (avatar.ts 693-696 / XesCloud.ts 547-550) -/

/-- Longest leading run of decimal digits. -/
def leadingDigits : List Char → List Char
  | [] => []
  | c :: rest => if c.isDigit then c :: leadingDigits rest else []

def digitsVal (ds : List Char) : Nat :=
  ds.foldl (fun a c => a * 10 + (c.toNat - 48)) 0

/-- `parseInt(s, 10)`: skip leading whitespace, read an optional sign and
the longest leading run of decimal digits; no digits means `NaN`
(`none`). Number values are idealized as exact integers. -/
def jsParseInt10 (s : String) : Option Int :=
  let cs := s.toList.dropWhile Char.isWhitespace
  let signed : Int × List Char :=
    match cs with
    | '-' :: r => (-1, r)
    | '+' :: r => (1, r)
    | r => (1, r)
  let ds := leadingDigits signed.2
  if ds.isEmpty then none else some (signed.1 * (digitsVal ds : Int))

/-- `parseInt(this.projectId, 10) || 0`: `NaN` and `0` are falsy, so both
give `0`. -/
def clearCacheChatId (projectId : String) : Int :=
  match jsParseInt10 projectId with
  | none => 0
  | some n => if n = 0 then 0 else n

/-- The caches one client instance touches in `clearCache()`: the
module-level short-TTL cache (keyed by the projectId string) and the
two-tier message cache (memory tier plus persisted tier). -/
structure ClientCaches where
  coalesce : CoalesceState
  messageCache : MessageCacheManager.State
  localStore : LocalStorage

/-- `clearCache()`: `this.cacheManager.clear(parseInt(this.projectId, 10)
|| 0)` then `globalCache.delete(this.projectId)`. -/
def clearCache (st : ClientCaches) (projectId : String) : ClientCaches :=
  let cleared := MessageCacheManager.clear st.messageCache st.localStore
    (clearCacheChatId projectId)
  { coalesce := { st.coalesce with
      globalCache := mapDel st.coalesce.globalCache projectId },
    messageCache := cleared.1,
    localStore := cleared.2 }

end EasyChat

namespace EasyChat

variable {K V : Type} [DecidableEq K]

theorem mapLookup_del_self (m : List (K × V)) (key : K) :
    mapLookup (mapDel m key) key = none := by
  induction m with
  | nil => rfl
  | cons p rest ih =>
    by_cases h : p.1 = key
    · simpa [mapDel, h] using ih
    · simpa [mapDel, mapLookup, h] using ih

theorem mapLookup_del_ne (m : List (K × V)) (key key' : K) (h : key' ≠ key) :
    mapLookup (mapDel m key) key' = mapLookup m key' := by
  induction m with
  | nil => rfl
  | cons p rest ih =>
    by_cases hp : p.1 = key
    · have hne : ¬ p.1 = key' := by rw [hp]; exact fun hc => h hc.symm
      rw [show mapDel (p :: rest) key = mapDel rest key by simp [mapDel, hp]]
      rw [ih, mapLookup, if_neg hne]
    · rw [show mapDel (p :: rest) key = p :: mapDel rest key by simp [mapDel, hp]]
      by_cases hp' : p.1 = key'
      · rw [mapLookup, if_pos hp', mapLookup, if_pos hp']
      · rw [mapLookup, if_neg hp', mapLookup, if_neg hp', ih]

theorem mapLookup_set_self (m : List (K × V)) (key : K) (v : V) :
    mapLookup (mapSet m key v) key = some v := by
  simp [mapSet, mapLookup]

theorem mapLookup_set_ne (m : List (K × V)) (key key' : K) (v : V) (h : key' ≠ key) :
    mapLookup (mapSet m key v) key' = mapLookup m key' := by
  rw [mapSet, mapLookup, if_neg (show ¬ key = key' from fun hc => h hc.symm)]
  exact mapLookup_del_ne m key key' h

end EasyChat

/-- C9: LRU `get` on a present key promotes it to most-recently-used (it
becomes the last element of the recency list, the rest keeping their order),
and `set` of a new key on a full cache evicts the key at the head of the
recency list (the least-recently-used) before inserting; with capacity 2,
`set 1, set 2, get 1, set 3` evicts key 2 and leaves keys 1 and 3 present. -/
theorem C9_lru_promote_and_evict :
    (∀ (st : EasyChat.LRUCache Nat Nat) (key : Nat) (v : Nat),
      EasyChat.mapLookup st.cache key = some v → key ∈ st.keys →
        (st.get key).1 = some v ∧
        (st.get key).2.keys = EasyChat.removeFirst st.keys key ++ [key] ∧
        (st.get key).2.keys.getLast? = some key) ∧
    (∀ (st : EasyChat.LRUCache Nat Nat) (key oldest : Nat) (v : Nat) (rest : List Nat),
      EasyChat.mapLookup st.cache key = none → st.keys = oldest :: rest →
      st.keys.length ≥ st.maxSize → oldest ≠ key →
        EasyChat.mapLookup (st.set key v).cache oldest = none ∧
        EasyChat.mapLookup (st.set key v).cache key = some v ∧
        (st.set key v).keys = rest ++ [key]) ∧
    (EasyChat.lruExample.hasKey 1 = true ∧
     EasyChat.lruExample.hasKey 3 = true ∧
     EasyChat.lruExample.hasKey 2 = false) := by
  refine ⟨?_, ?_, by decide⟩
  · intro st key v hlook hmem
    have hsome : (EasyChat.mapLookup st.cache key).isNone = false := by
      rw [hlook]; rfl
    constructor
    · simp [EasyChat.LRUCache.get, hsome, hlook]
    constructor
    · simp [EasyChat.LRUCache.get, hsome, hmem]
    · simp [EasyChat.LRUCache.get, hsome, hmem]
  · intro st key oldest v rest hlook hkeys hfull hne
    have hsome : (EasyChat.mapLookup st.cache key).isSome = false := by
      rw [hlook]; rfl
    have hset : st.set key v =
        { st with cache := EasyChat.mapSet (EasyChat.mapDel st.cache oldest) key v,
                  keys := rest ++ [key] } := by
      simp [EasyChat.LRUCache.set, hsome, hkeys, hfull]
      rw [hkeys] at hfull
      simp [ge_iff_le] at hfull ⊢
      omega
    refine ⟨?_, ?_, ?_⟩
    · rw [hset]
      simpa [EasyChat.mapLookup_set_ne _ _ _ _ hne] using
        EasyChat.mapLookup_del_self st.cache oldest
    · rw [hset]
      exact EasyChat.mapLookup_set_self _ _ _
    · rw [hset]

/-- Witness for C9 at a concrete cache. -/
theorem C9_lru_promote_and_evict_witness :
    EasyChat.mapLookup ((((EasyChat.LRUCache.empty 2
        : EasyChat.LRUCache Nat Nat).set 1 10).set 2 20).set 3 30).cache 1 = none ∧
    ((((EasyChat.LRUCache.empty 2
        : EasyChat.LRUCache Nat Nat).set 5 50)).get 5).2.keys.getLast? = some 5 := by
  have h := C9_lru_promote_and_evict
  have h1 := h.1 (((EasyChat.LRUCache.empty 2 : EasyChat.LRUCache Nat Nat).set 5 50))
    5 50 (by decide) (by decide)
  have h2 := h.2.1 ((((EasyChat.LRUCache.empty 2
      : EasyChat.LRUCache Nat Nat).set 1 10).set 2 20)) 3 1 30 [2]
    (by decide) (by decide) (by decide) (by decide)
  exact ⟨h2.1, h1.2.2⟩

/-- C7: a persisted cache entry whose version differs from the configured
version, or whose age `now - timestamp` exceeds the configured expiry, is
never returned by `get`: `getFromLocalStorage` yields `null` and removes
the entry from persisted storage, and the public `get` (when the memory
tier misses) therefore also yields `null` with the entry removed. -/
theorem C7_stale_persisted_entry_dropped
    (st : EasyChat.MessageCacheManager.State) (store : EasyChat.LocalStorage)
    (chatId now : Int) (entry : EasyChat.CacheEntry)
    (hstore : EasyChat.mapLookup store (EasyChat.MessageCacheManager.storageKey chatId) =
      some (.ok entry))
    (hstale : entry.version ≠ st.config.version ∨
      now - entry.timestamp > st.config.localStorageExpiry) :
    (EasyChat.MessageCacheManager.getFromLocalStorage st store chatId now).1 = none ∧
    EasyChat.mapLookup
      (EasyChat.MessageCacheManager.getFromLocalStorage st store chatId now).2
      (EasyChat.MessageCacheManager.storageKey chatId) = none ∧
    (st.memoryCache.hasKey (EasyChat.MessageCacheManager.getCacheKey chatId) = false →
      (EasyChat.MessageCacheManager.get st store chatId now).1 = none ∧
      EasyChat.mapLookup (EasyChat.MessageCacheManager.get st store chatId now).2.2
        (EasyChat.MessageCacheManager.storageKey chatId) = none) := by
  have hloc : EasyChat.MessageCacheManager.getFromLocalStorage st store chatId now =
      (none, EasyChat.mapDel store (EasyChat.MessageCacheManager.storageKey chatId)) := by
    by_cases hv : entry.version = st.config.version
    · have hexp : now - entry.timestamp > st.config.localStorageExpiry := by
        rcases hstale with h | h
        · exact absurd hv h
        · exact h
      simp [EasyChat.MessageCacheManager.getFromLocalStorage, hstore, hv, hexp]
    · simp [EasyChat.MessageCacheManager.getFromLocalStorage, hstore, hv]
  refine ⟨by rw [hloc], by rw [hloc]; exact EasyChat.mapLookup_del_self _ _, ?_⟩
  intro hmem
  have hm : EasyChat.MessageCacheManager.getFromMemory st chatId = (none, st) := by
    simp [EasyChat.MessageCacheManager.getFromMemory, hmem]
  constructor
  · simp [EasyChat.MessageCacheManager.get, hm, hloc]
  · simp [EasyChat.MessageCacheManager.get, hm, hloc]
    exact EasyChat.mapLookup_del_self _ _

/-- Witness for C7: a persisted entry for chat id 1 stored with version 2
against configured version 1 is dropped and removed. -/
theorem C7_stale_persisted_entry_dropped_witness :
    (EasyChat.MessageCacheManager.get
      { memoryCache := EasyChat.LRUCache.empty 100,
        config := EasyChat.DEFAULT_MESSAGE_CACHE_CONFIG }
      [("msg_cache_1", .ok { data := [("k", "v")], timestamp := 0, version := 2 })]
      1 0).1 = none ∧
    EasyChat.mapLookup
      (EasyChat.MessageCacheManager.get
        { memoryCache := EasyChat.LRUCache.empty 100,
          config := EasyChat.DEFAULT_MESSAGE_CACHE_CONFIG }
        [("msg_cache_1", .ok { data := [("k", "v")], timestamp := 0, version := 2 })]
        1 0).2.2 "msg_cache_1" = none := by
  have h := C7_stale_persisted_entry_dropped
    { memoryCache := EasyChat.LRUCache.empty 100,
      config := EasyChat.DEFAULT_MESSAGE_CACHE_CONFIG }
    [("msg_cache_1", .ok { data := [("k", "v")], timestamp := 0, version := 2 })]
    1 0 { data := [("k", "v")], timestamp := 0, version := 2 }
    (by decide) (Or.inl (by decide))
  have h3 := h.2.2 (by decide)
  exact ⟨h3.1, by simpa [EasyChat.MessageCacheManager.storageKey,
    EasyChat.STORAGE_PREFIX] using h3.2⟩

/-- C4: during a read enumeration, an inbound pair whose name is already in
the accumulated result completes the walk: the socket is closed and the
call resolves with the accumulated set, the duplicate excluded; in
particular the pushes (A,1),(B,2),(C,3),(A,1) terminate on the second A
and return exactly A:1, B:2, C:3. -/
theorem C4_duplicate_pair_terminates_enumeration :
    (∀ (st : EasyChat.FetchState) (n v : String),
      st.completed = false → (EasyChat.mapLookup st.result n).isSome = true →
        EasyChat.fetchMsgStep st (.pair n v) =
          { st with completed := true, socketClosed := true,
                    outcome := some (.resolved st.result) }) ∧
    (EasyChat.runFetch [.msg (.pair "A" "1"), .msg (.pair "B" "2"),
        .msg (.pair "C" "3"), .msg (.pair "A" "1")]).outcome =
      some (.resolved [("A", "1"), ("B", "2"), ("C", "3")]) ∧
    (EasyChat.runFetch [.msg (.pair "A" "1"), .msg (.pair "B" "2"),
        .msg (.pair "C" "3"), .msg (.pair "A" "1")]).socketClosed = true := by
  refine ⟨?_, by decide, by decide⟩
  intro st n v hc hdup
  simp [EasyChat.fetchMsgStep, hc, hdup]

/-- Witness for C4 at a concrete in-flight state. -/
theorem C4_duplicate_pair_terminates_enumeration_witness :
    EasyChat.fetchMsgStep
      { result := [("A", "1")], completed := false, outcome := none,
        socketClosed := false, warnCount := 0 } (.pair "A" "9") =
      { result := [("A", "1")], completed := true,
        outcome := some (.resolved [("A", "1")]), socketClosed := true,
        warnCount := 0 } := by
  exact C4_duplicate_pair_terminates_enumeration.1
    { result := [("A", "1")], completed := false, outcome := none,
      socketClosed := false, warnCount := 0 } "A" "9" (by decide) (by decide)

/-- C5: before any completion, expiry of the global timeout resolves the
read enumeration with the set accumulated so far, socket close likewise
resolves with the partial set, and a socket error rejects with the
connection error; no other event can produce a rejection. -/
theorem C5_fetch_timeout_and_close_resolve_partial
    (st : EasyChat.FetchState) (hc : st.completed = false) (ho : st.outcome = none) :
    (EasyChat.fetchStep st .timeout).outcome = some (.resolved st.result) ∧
    (EasyChat.fetchStep st .socketClose).outcome = some (.resolved st.result) ∧
    (EasyChat.fetchStep st .socketError).outcome = some .rejected ∧
    (∀ e : EasyChat.FetchEvent,
      (EasyChat.fetchStep st e).outcome = some .rejected → e = .socketError) := by
  refine ⟨by simp [EasyChat.fetchStep, hc], by simp [EasyChat.fetchStep, hc],
    by simp [EasyChat.fetchStep, hc], ?_⟩
  intro e he
  cases e with
  | msg f =>
    cases f with
    | pair n v =>
      by_cases hdup : (EasyChat.mapLookup st.result n).isSome = true
      · simp [EasyChat.fetchStep, EasyChat.fetchMsgStep, hc, hdup] at he
      · simp [EasyChat.fetchStep, EasyChat.fetchMsgStep, hc, hdup, ho] at he
    | ping => simp [EasyChat.fetchStep, EasyChat.fetchMsgStep, hc, ho] at he
    | ack r => simp [EasyChat.fetchStep, EasyChat.fetchMsgStep, hc, ho] at he
    | other => simp [EasyChat.fetchStep, EasyChat.fetchMsgStep, hc, ho] at he
    | malformed => simp [EasyChat.fetchStep, EasyChat.fetchMsgStep, hc, ho] at he
  | timeout => simp [EasyChat.fetchStep, hc] at he
  | socketError => rfl
  | socketClose => simp [EasyChat.fetchStep, hc] at he

/-- Witness for C5 at the initial fetch state. -/
theorem C5_fetch_timeout_and_close_resolve_partial_witness :
    (EasyChat.fetchStep EasyChat.initFetchState .timeout).outcome =
      some (.resolved []) ∧
    (EasyChat.fetchStep EasyChat.initFetchState .socketError).outcome =
      some .rejected := by
  have h := C5_fetch_timeout_and_close_resolve_partial EasyChat.initFetchState
    (by decide) (by decide)
  exact ⟨h.1, h.2.2.1⟩

/-- C2: a write task's round trip that receives an ack with
`reply === 'OK'` resolves with success, and an ack with any other reply
(a different string, or no reply field) rejects the task with the
remote-rejected error `'发送失败'`. -/
theorem C2_ack_reply_decides_write :
    EasyChat.sendNumFrameOutcome (.ack (some "OK")) = some (.ok "success") ∧
    (∀ reply : Option String, reply ≠ some "OK" →
      EasyChat.sendNumFrameOutcome (.ack reply) =
        some (.error EasyChat.WriteErr.remoteRejected)) := by
  refine ⟨rfl, ?_⟩
  intro reply h
  simp [EasyChat.sendNumFrameOutcome, EasyChat.writeFrameOutcome,
    EasyChat.writeConnForward, EasyChat.doWriteResolveFrame, Except.bind,
    EasyChat.sendNumComplete, h]

/-- Witness for C2: a concrete non-OK ack rejects. -/
theorem C2_ack_reply_decides_write_witness :
    EasyChat.sendNumFrameOutcome (.ack (some "FAIL")) =
      some (.error EasyChat.WriteErr.remoteRejected) := by
  exact C2_ack_reply_decides_write.2 (some "FAIL") (by decide)

/-- C3 counterexample: the claim says a malformed or unexpected-shape
inbound frame never causes the in-flight operation to reject, for writes
and reads alike; but during an in-flight write round trip an unparseable
frame settles the write with the parse error, and a parseable frame of
unexpected shape settles it with `'非预期的响应'` — both rejections. -/
theorem C3_malformed_frame_counterexample :
    EasyChat.writeFrameOutcome EasyChat.Frame.malformed =
      some (.error EasyChat.WriteErr.parseError) ∧
    EasyChat.writeFrameOutcome EasyChat.Frame.other =
      some (.error EasyChat.WriteErr.unexpectedResponse) := by
  exact ⟨rfl, rfl⟩

/-- C3 amended: during a read enumeration a malformed inbound frame is
logged and ignored and an unexpected-shape frame is silently ignored —
neither settles the call nor closes the socket; on the write connection a
ping is swallowed, but a frame reaching an in-flight write's resolver
rejects that write: with the parse error if unparseable, with the
unexpected-response error if not an ack. -/
theorem C3_malformed_frame_read_ignored_write_rejects :
    (∀ st : EasyChat.FetchState, st.completed = false →
      EasyChat.fetchMsgStep st .malformed =
        { st with warnCount := st.warnCount + 1 } ∧
      EasyChat.fetchMsgStep st .other = st) ∧
    EasyChat.writeFrameOutcome .ping = none ∧
    EasyChat.writeFrameOutcome .malformed =
      some (.error EasyChat.WriteErr.parseError) ∧
    EasyChat.writeFrameOutcome .other =
      some (.error EasyChat.WriteErr.unexpectedResponse) := by
  refine ⟨?_, rfl, rfl, rfl⟩
  intro st hc
  exact ⟨by simp [EasyChat.fetchMsgStep, hc], by simp [EasyChat.fetchMsgStep, hc]⟩

/-- Witness for the amended C3 at the initial fetch state. -/
theorem C3_malformed_frame_read_ignored_write_rejects_witness :
    EasyChat.fetchMsgStep EasyChat.initFetchState .malformed =
      { result := [], completed := false, outcome := none,
        socketClosed := false, warnCount := 1 } := by
  exact ((C3_malformed_frame_read_ignored_write_rejects).1
    EasyChat.initFetchState (by decide)).1

namespace EasyChat

theorem settledIds_nil : settledIds [] = [] := rfl

theorem settledIds_cons_start (i : Nat) (tr : List QEvent) :
    settledIds (.taskStart i :: tr) = settledIds tr := rfl

theorem settledIds_cons_settle (i : Nat) (tr : List QEvent) :
    settledIds (.taskSettle i :: tr) = i :: settledIds tr := rfl

theorem startedIds_cons_start (i : Nat) (tr : List QEvent) :
    startedIds (.taskStart i :: tr) = i :: startedIds tr := rfl

theorem startedIds_cons_settle (i : Nat) (tr : List QEvent) :
    startedIds (.taskSettle i :: tr) = startedIds tr := rfl

theorem pairTrace_append (d : List Nat) (i : Nat) :
    pairTrace (d ++ [i]) = pairTrace d ++ [.taskStart i, .taskSettle i] := by
  induction d with
  | nil => rfl
  | cons a rest ih =>
    show pairTrace (a :: (rest ++ [i])) = pairTrace (a :: rest) ++ _
    rw [pairTrace, pairTrace, ih]
    rfl

theorem settledIds_pairTrace (d : List Nat) : settledIds (pairTrace d) = d := by
  induction d with
  | nil => rfl
  | cons a rest ih =>
    rw [pairTrace, settledIds_cons_start, settledIds_cons_settle, ih]

theorem startedIds_pairTrace (d : List Nat) : startedIds (pairTrace d) = d := by
  induction d with
  | nil => rfl
  | cons a rest ih =>
    rw [pairTrace, startedIds_cons_start, startedIds_cons_settle, ih]

theorem settledIds_fullTrace (d : List Nat) (cur : Option Nat) :
    settledIds (fullTrace d cur) = d := by
  cases cur with
  | none => exact settledIds_pairTrace d
  | some i =>
    rw [fullTrace]
    induction d with
    | nil => rfl
    | cons a rest ih =>
      rw [pairTrace, List.cons_append, List.cons_append,
        settledIds_cons_start, settledIds_cons_settle, ih]

theorem startedIds_fullTrace_none (d : List Nat) :
    startedIds (fullTrace d none) = d := by
  rw [fullTrace, startedIds_pairTrace]

theorem startedIds_fullTrace_some (d : List Nat) (i : Nat) :
    startedIds (fullTrace d (some i)) = d ++ [i] := by
  rw [fullTrace]
  induction d with
  | nil => rfl
  | cons a rest ih =>
    rw [pairTrace, List.cons_append, List.cons_append,
      startedIds_cons_start, startedIds_cons_settle, ih, List.cons_append]

theorem serialOK_pairTrace (d : List Nat) : serialOK (pairTrace d) = true := by
  induction d with
  | nil => rfl
  | cons a rest ih => simp [pairTrace, serialOK, ih]

theorem serialOK_fullTrace (d : List Nat) (cur : Option Nat) :
    serialOK (fullTrace d cur) = true := by
  cases cur with
  | none => exact serialOK_pairTrace d
  | some i =>
    rw [fullTrace]
    induction d with
    | nil => rfl
    | cons a rest ih =>
      rw [pairTrace, List.cons_append, List.cons_append]
      simpa [serialOK] using ih

/-- Step equation: enqueue while the processing loop is running. -/
theorem qStep_enqueue_busy (st : QueueState) (i j : Nat) (hcur : st.current = some j) :
    qStep st (.enqueue i) =
      { st with queue := st.queue ++ [i], enqueued := st.enqueued ++ [i] } := by
  simp [qStep, hcur]

/-- Step equation: enqueue onto an idle queue starts the head task. -/
theorem qStep_enqueue_idle (st : QueueState) (i : Nat)
    (hcur : st.current = none) (hq : st.queue = []) :
    qStep st (.enqueue i) =
      { st with queue := [i], enqueued := st.enqueued ++ [i],
                current := some i, trace := st.trace ++ [.taskStart i] } := by
  simp [qStep, hcur, hq]

/-- Step equation: the settled task was the only one queued. -/
theorem qStep_settle_last (st : QueueState) (i : Nat)
    (hcur : st.current = some i) (hq : st.queue = [i]) :
    qStep st .settleCurrent =
      { st with queue := [], current := none,
                trace := st.trace ++ [.taskSettle i] } := by
  simp [qStep, hcur, hq]

/-- Step equation: settling with more tasks queued starts the next head. -/
theorem qStep_settle_next (st : QueueState) (i hd : Nat) (rest : List Nat)
    (hcur : st.current = some i) (hq : st.queue = i :: hd :: rest) :
    qStep st .settleCurrent =
      { st with queue := hd :: rest, current := some hd,
                trace := st.trace ++ [.taskSettle i, .taskStart hd] } := by
  simp [qStep, hcur, hq]

/-- The reachability invariant of the write queue: the trace is the settled
tasks' start/settle pairs followed by the start of the currently awaited
task; the enqueue order is the settled ids followed by the live queue; the
awaited task is the queue head and the queue is empty when idle. -/
def QInv (st : QueueState) : Prop :=
  ∃ done : List Nat,
    st.trace = fullTrace done st.current ∧
    st.enqueued = done ++ st.queue ∧
    (match st.current with
     | none => st.queue = []
     | some i => st.queue.head? = some i)

theorem qStep_inv (st : QueueState) (c : QCmd) (h : QInv st) : QInv (qStep st c) := by
  obtain ⟨done, h1, h2, h3⟩ := h
  cases c with
  | enqueue i =>
    cases hcur : st.current with
    | some j =>
      rw [hcur] at h1 h3
      rw [qStep_enqueue_busy st i j hcur]
      obtain ⟨t, hq⟩ : ∃ t, st.queue = j :: t := by
        cases hqq : st.queue with
        | nil => rw [hqq] at h3; exact absurd h3 (by simp)
        | cons a s =>
          rw [hqq] at h3
          simp only [List.head?_cons, Option.some_inj] at h3
          exact ⟨s, by rw [h3]⟩
      refine ⟨done, ?_, ?_, ?_⟩
      · show st.trace = fullTrace done st.current
        rw [hcur]; exact h1
      · show st.enqueued ++ [i] = done ++ (st.queue ++ [i])
        rw [h2, List.append_assoc]
      · show (match st.current with
            | none => st.queue ++ [i] = []
            | some k => (st.queue ++ [i]).head? = some k)
        rw [hcur, hq]
        rfl
    | none =>
      rw [hcur] at h1 h3
      rw [qStep_enqueue_idle st i hcur h3]
      refine ⟨done, ?_, ?_, rfl⟩
      · show st.trace ++ [.taskStart i] = fullTrace done (some i)
        rw [h1]
        rfl
      · show st.enqueued ++ [i] = done ++ [i]
        rw [h2, h3, List.append_nil]
  | settleCurrent =>
    cases hcur : st.current with
    | none =>
      have : qStep st .settleCurrent = st := by simp [qStep, hcur]
      rw [this]
      exact ⟨done, h1, h2, h3⟩
    | some i =>
      rw [hcur] at h1 h3
      obtain ⟨t, hq⟩ : ∃ t, st.queue = i :: t := by
        cases hqq : st.queue with
        | nil => rw [hqq] at h3; exact absurd h3 (by simp)
        | cons a s =>
          rw [hqq] at h3
          simp only [List.head?_cons, Option.some_inj] at h3
          exact ⟨s, by rw [h3]⟩
      cases ht : t with
      | nil =>
        rw [qStep_settle_last st i hcur (by rw [hq, ht])]
        refine ⟨done ++ [i], ?_, ?_, rfl⟩
        · show st.trace ++ [.taskSettle i] = fullTrace (done ++ [i]) none
          rw [h1, fullTrace, fullTrace, pairTrace_append, List.append_assoc]
          rfl
        · show st.enqueued = (done ++ [i]) ++ []
          rw [h2, hq, ht, List.append_nil]
      | cons hd rest =>
        rw [qStep_settle_next st i hd rest hcur (by rw [hq, ht])]
        refine ⟨done ++ [i], ?_, ?_, rfl⟩
        · show st.trace ++ [.taskSettle i, .taskStart hd] =
            fullTrace (done ++ [i]) (some hd)
          rw [h1, fullTrace, fullTrace, pairTrace_append,
            List.append_assoc, List.append_assoc]
          rfl
        · show st.enqueued = (done ++ [i]) ++ (hd :: rest)
          rw [h2, hq, ht, List.append_assoc]
          rfl

theorem runQueue_inv (cmds : List QCmd) : QInv (runQueue cmds) := by
  have main : ∀ (cs : List QCmd) (st : QueueState), QInv st →
      QInv (List.foldl qStep st cs) := by
    intro cs
    induction cs with
    | nil => intro st h; exact h
    | cons c rest ih =>
      intro st h
      exact ih (qStep st c) (qStep_inv st c h)
  exact main cmds initQueueState ⟨[], rfl, rfl, rfl⟩

/-- Helper: `getAllNum` on a cache miss with no in-flight request starts a
new fetch and registers it. -/
theorem getAllNum_starts (st : CoalesceState) (pid : String) (now : Int)
    (hc : mapLookup st.globalCache pid = none)
    (hp : mapLookup st.pendingRequests pid = none) :
    getAllNum st pid now =
      (.started st.nextFetchId,
       { st with
          pendingRequests := mapSet st.pendingRequests pid st.nextFetchId,
          fetchCount := st.fetchCount + 1,
          nextFetchId := st.nextFetchId + 1 }) := by
  simp [getAllNum, hc, hp]

/-- Helper: `getAllNum` with a fetch in flight joins it and changes
nothing. -/
theorem getAllNum_joins (st : CoalesceState) (pid : String) (now : Int) (fid : Nat)
    (hc : mapLookup st.globalCache pid = none)
    (hp : mapLookup st.pendingRequests pid = some fid) :
    getAllNum st pid now = (.joined fid, st) := by
  simp [getAllNum, hc, hp]

/-- Helper: `getAllNum` with a fresh TTL cache entry serves it and changes
nothing. -/
theorem getAllNum_cached (st : CoalesceState) (pid : String) (now : Int)
    (d : Messages) (ts : Int)
    (hc : mapLookup st.globalCache pid = some (d, ts))
    (h : now - ts < CACHE_TTL) :
    getAllNum st pid now = (.cached d, st) := by
  simp [getAllNum, hc, h]

end EasyChat

/-- C1: for every sequence of enqueue calls and task settlements the write
queue can experience, the execution trace consists of start/settle pairs —
no task's network operation starts before the previous task's round trip
has settled — possibly followed by the start of the one task currently in
flight; the enqueue order is the settled ids followed by the live queue,
and the started ids are exactly an initial segment of the enqueue order
(tasks run one at a time, in enqueue order). -/
theorem C1_write_queue_serializes_in_enqueue_order (cmds : List EasyChat.QCmd) :
    EasyChat.serialOK (EasyChat.runQueue cmds).trace = true ∧
    (EasyChat.runQueue cmds).trace =
      EasyChat.fullTrace (EasyChat.settledIds (EasyChat.runQueue cmds).trace)
        (EasyChat.runQueue cmds).current ∧
    (EasyChat.runQueue cmds).enqueued =
      EasyChat.settledIds (EasyChat.runQueue cmds).trace ++
        (EasyChat.runQueue cmds).queue ∧
    EasyChat.startedIds (EasyChat.runQueue cmds).trace =
      (EasyChat.runQueue cmds).enqueued.take
        (EasyChat.startedIds (EasyChat.runQueue cmds).trace).length := by
  obtain ⟨done, h1, h2, h3⟩ := EasyChat.runQueue_inv cmds
  have hsettled : EasyChat.settledIds (EasyChat.runQueue cmds).trace = done := by
    rw [h1, EasyChat.settledIds_fullTrace]
  refine ⟨by rw [h1]; exact EasyChat.serialOK_fullTrace _ _,
    by rw [hsettled, h1], by rw [hsettled, h2], ?_⟩
  cases hcur : (EasyChat.runQueue cmds).current with
  | none =>
    rw [hcur] at h1 h3
    rw [h1, EasyChat.startedIds_fullTrace_none, h2, h3, List.append_nil]
    exact (List.take_length done).symm
  | some i =>
    rw [hcur] at h1 h3
    obtain ⟨t, hq⟩ : ∃ t, (EasyChat.runQueue cmds).queue = i :: t := by
      cases hqq : (EasyChat.runQueue cmds).queue with
      | nil => rw [hqq] at h3; exact absurd h3 (by simp)
      | cons a s =>
        rw [hqq] at h3
        simp only [List.head?_cons, Option.some_inj] at h3
        exact ⟨s, by rw [h3]⟩
    rw [h1, EasyChat.startedIds_fullTrace_some, h2, hq]
    rw [show done ++ i :: t = (done ++ [i]) ++ t by simp]
    exact (List.take_left' rfl).symm

/-- C8: `cleanupWriteConnection` rejects the currently active write waiter
(if any) and drains and rejects every task still queued, leaving the queue
empty, no registered waiter, and the socket dropped: no queued write's
completion handle stays unsettled. -/
theorem C8_cleanup_drains_and_rejects_queue (st : EasyChat.WriteConnState) :
    (EasyChat.cleanupWriteConnection st).1.writeTaskQueue = [] ∧
    (EasyChat.cleanupWriteConnection st).1.currentWriteResolver = none ∧
    (EasyChat.cleanupWriteConnection st).1.writeWsOpen = false ∧
    (∀ i, st.currentWriteResolver = some i →
      EasyChat.Settlement.resolverRejected i ∈ (EasyChat.cleanupWriteConnection st).2) ∧
    (∀ i, i ∈ st.writeTaskQueue →
      EasyChat.Settlement.taskRejected i ∈ (EasyChat.cleanupWriteConnection st).2) := by
  refine ⟨rfl, rfl, rfl, ?_, ?_⟩
  · intro i hi
    show EasyChat.Settlement.resolverRejected i ∈
      (match st.currentWriteResolver with
       | some j => [EasyChat.Settlement.resolverRejected j]
       | none => []) ++ st.writeTaskQueue.map EasyChat.Settlement.taskRejected
    rw [hi]
    exact List.mem_append_left _ (List.mem_singleton_self _)
  · intro i hi
    show EasyChat.Settlement.taskRejected i ∈
      (match st.currentWriteResolver with
       | some j => [EasyChat.Settlement.resolverRejected j]
       | none => []) ++ st.writeTaskQueue.map EasyChat.Settlement.taskRejected
    exact List.mem_append_right _ (List.mem_map_of_mem _ hi)

/-- Witness for C8 at a concrete write-connection state. -/
theorem C8_cleanup_drains_and_rejects_queue_witness :
    EasyChat.Settlement.resolverRejected 7 ∈
      (EasyChat.cleanupWriteConnection
        { writeWsOpen := true, writeConnecting := false,
          currentWriteResolver := some 7, writeTaskQueue := [7, 8, 9] }).2 ∧
    EasyChat.Settlement.taskRejected 9 ∈
      (EasyChat.cleanupWriteConnection
        { writeWsOpen := true, writeConnecting := false,
          currentWriteResolver := some 7, writeTaskQueue := [7, 8, 9] }).2 := by
  have h := C8_cleanup_drains_and_rejects_queue
    { writeWsOpen := true, writeConnecting := false,
      currentWriteResolver := some 7, writeTaskQueue := [7, 8, 9] }
  exact ⟨h.2.2.2.1 7 rfl, h.2.2.2.2 9 (by decide)⟩

/-- C6: starting from a state with no cache entry and no in-flight fetch
for a resource id, a first `getAllNum` starts exactly one `fetchOnceData`;
a second call while that fetch is in flight returns the same shared
promise without starting another; and a second call after the fetch
resolved, within the 2000 ms TTL, returns the cached data; the invocation
count stays at one more than initially in every case. -/
theorem C6_two_reads_one_enumeration (st0 : EasyChat.CoalesceState)
    (pid : String) (t1 : Int)
    (hc : EasyChat.mapLookup st0.globalCache pid = none)
    (hp : EasyChat.mapLookup st0.pendingRequests pid = none) :
    (EasyChat.getAllNum st0 pid t1).1 = .started st0.nextFetchId ∧
    (EasyChat.getAllNum st0 pid t1).2.fetchCount = st0.fetchCount + 1 ∧
    (∀ t2 : Int,
      (EasyChat.getAllNum (EasyChat.getAllNum st0 pid t1).2 pid t2).1 =
        .joined st0.nextFetchId ∧
      (EasyChat.getAllNum (EasyChat.getAllNum st0 pid t1).2 pid t2).2 =
        (EasyChat.getAllNum st0 pid t1).2) ∧
    (∀ (d : EasyChat.Messages) (tr t2 : Int), t2 - tr < EasyChat.CACHE_TTL →
      (EasyChat.getAllNum
        (EasyChat.resolveFetch (EasyChat.getAllNum st0 pid t1).2 pid d tr)
        pid t2).1 = .cached d ∧
      (EasyChat.getAllNum
        (EasyChat.resolveFetch (EasyChat.getAllNum st0 pid t1).2 pid d tr)
        pid t2).2 =
        EasyChat.resolveFetch (EasyChat.getAllNum st0 pid t1).2 pid d tr ∧
      (EasyChat.resolveFetch (EasyChat.getAllNum st0 pid t1).2 pid d tr).fetchCount =
        st0.fetchCount + 1) := by
  have hstart := EasyChat.getAllNum_starts st0 pid t1 hc hp
  refine ⟨by rw [hstart], by rw [hstart], ?_, ?_⟩
  · intro t2
    have hg1 : EasyChat.mapLookup (EasyChat.getAllNum st0 pid t1).2.globalCache pid =
        none := by
      rw [hstart]; exact hc
    have hp1 : EasyChat.mapLookup (EasyChat.getAllNum st0 pid t1).2.pendingRequests
        pid = some st0.nextFetchId := by
      rw [hstart]
      exact EasyChat.mapLookup_set_self _ _ _
    have hj := EasyChat.getAllNum_joins _ pid t2 _ hg1 hp1
    exact ⟨by rw [hj], by rw [hj]⟩
  · intro d tr t2 hts
    have hg2 : EasyChat.mapLookup
        (EasyChat.resolveFetch (EasyChat.getAllNum st0 pid t1).2 pid d tr).globalCache
        pid = some (d, tr) :=
      EasyChat.mapLookup_set_self _ _ _
    have hcache := EasyChat.getAllNum_cached _ pid t2 d tr hg2 hts
    refine ⟨by rw [hcache], by rw [hcache], ?_⟩
    rw [hstart]
    rfl

/-- Witness for C6 from the empty coalescer state. -/
theorem C6_two_reads_one_enumeration_witness :
    (EasyChat.getAllNum EasyChat.initCoalesceState "199999999" 0).1 = .started 0 ∧
    (EasyChat.getAllNum
      (EasyChat.getAllNum EasyChat.initCoalesceState "199999999" 0).2
      "199999999" 5).1 = .joined 0 ∧
    (EasyChat.getAllNum
      (EasyChat.resolveFetch
        (EasyChat.getAllNum EasyChat.initCoalesceState "199999999" 0).2
        "199999999" [("a", "b")] 10)
      "199999999" 100).1 = .cached [("a", "b")] := by
  have h := C6_two_reads_one_enumeration EasyChat.initCoalesceState "199999999" 0
    (by decide) (by decide)
  exact ⟨h.1, (h.2.2.1 5).1, (h.2.2.2 [("a", "b")] 10 100 (by decide)).1⟩

/-- C10: `clearCache()` deletes the short-TTL cache entry keyed by the
exact projectId string, but clears the two-tier message cache under the
numeric key `parseInt(projectId, 10) || 0`: when the projectId does not
parse as a decimal integer (`parseInt` gives `NaN`) or parses to 0, the
two-tier entry cleared is the one for id 0, and persisted entries under
any other key — in particular one keyed by the projectId string itself —
are untouched. -/
theorem C10_clearCache_key_mismatch (st : EasyChat.ClientCaches) (projectId : String) :
    EasyChat.mapLookup (EasyChat.clearCache st projectId).coalesce.globalCache
      projectId = none ∧
    (EasyChat.clearCache st projectId).messageCache.memoryCache.hasKey
      (toString (EasyChat.clearCacheChatId projectId)) = false ∧
    EasyChat.mapLookup (EasyChat.clearCache st projectId).localStore
      (EasyChat.STORAGE_PREFIX ++ toString (EasyChat.clearCacheChatId projectId)) =
      none ∧
    ((EasyChat.jsParseInt10 projectId = none ∨ EasyChat.jsParseInt10 projectId = some 0) →
      EasyChat.clearCacheChatId projectId = 0) ∧
    (∀ k, k ≠ EasyChat.STORAGE_PREFIX ++ toString (EasyChat.clearCacheChatId projectId) →
      EasyChat.mapLookup (EasyChat.clearCache st projectId).localStore k =
        EasyChat.mapLookup st.localStore k) ∧
    EasyChat.clearCacheChatId "chat-room" = 0 ∧
    EasyChat.clearCacheChatId "" = 0 ∧
    EasyChat.clearCacheChatId "0x12" = 0 ∧
    EasyChat.clearCacheChatId "199999999" = 199999999 := by
  refine ⟨?_, ?_, ?_, ?_, ?_, by decide, by decide, by decide, by decide⟩
  · exact EasyChat.mapLookup_del_self _ _
  · simp [EasyChat.clearCache, EasyChat.MessageCacheManager.clear,
      EasyChat.LRUCache.del, EasyChat.LRUCache.hasKey,
      EasyChat.MessageCacheManager.getCacheKey, EasyChat.mapLookup_del_self]
  · exact EasyChat.mapLookup_del_self _ _
  · intro h
    cases h with
    | inl h => simp [EasyChat.clearCacheChatId, h]
    | inr h => simp [EasyChat.clearCacheChatId, h]
  · intro k hk
    exact EasyChat.mapLookup_del_ne _ _ _ hk

/-- Witness for C10: for projectId `"chat-room"`, the persisted entry for
id 0 is removed while the entry under the projectId-derived key stays. -/
theorem C10_clearCache_key_mismatch_witness :
    EasyChat.mapLookup
      (EasyChat.clearCache
        { coalesce := EasyChat.initCoalesceState,
          messageCache := { memoryCache := EasyChat.LRUCache.empty 100,
                            config := EasyChat.DEFAULT_MESSAGE_CACHE_CONFIG },
          localStore := [("msg_cache_0", .bad), ("msg_cache_chat-room", .bad)] }
        "chat-room").localStore "msg_cache_0" = none ∧
    EasyChat.mapLookup
      (EasyChat.clearCache
        { coalesce := EasyChat.initCoalesceState,
          messageCache := { memoryCache := EasyChat.LRUCache.empty 100,
                            config := EasyChat.DEFAULT_MESSAGE_CACHE_CONFIG },
          localStore := [("msg_cache_0", .bad), ("msg_cache_chat-room", .bad)] }
        "chat-room").localStore "msg_cache_chat-room" = some .bad := by
  have h := C10_clearCache_key_mismatch
    { coalesce := EasyChat.initCoalesceState,
      messageCache := { memoryCache := EasyChat.LRUCache.empty 100,
                        config := EasyChat.DEFAULT_MESSAGE_CACHE_CONFIG },
      localStore := [("msg_cache_0", .bad), ("msg_cache_chat-room", .bad)] }
    "chat-room"
  refine ⟨?_, ?_⟩
  · have := h.2.2.1
    simpa [EasyChat.STORAGE_PREFIX] using this
  · have := h.2.2.2.2.1 "msg_cache_chat-room" (by decide)
    rw [this]
    decide
